import Mathlib

/-!
Verification development for the WormholeService data-aggregation engine
(`packages/wormhole-plugin/src/service.ts` and the `wormhole-data-provider`
variant). The TypeScript service is shallowly embedded: JavaScript numbers
that only ever hold exact integer values are modelled as `Nat`/`Int`,
JavaScript floating-point arithmetic on amounts and rates is idealized as
exact rational arithmetic (`ℚ`), `BigInt` division is `Int.tdiv` (truncation
toward zero), `Math.floor((a+b)/2)` on integers is `Int` division `/`
(which rounds toward negative infinity for the positive divisor 2), and
promise-based control flow with thrown errors is explicit `Except` passing.
Timestamps (`Date.now`, `new Date().toISOString()`) are modelled as explicit
numeric time parameters or omitted where a claim does not mention them.
-/

/-! ### Retry executor: `RetryConfig` and `WormholeService.executeRequest`
(service.ts lines 53-58 and 139-216). -/

/-- Retry configuration (service.ts lines 53-58); the service constructor
fills in `maxRetries` from config and the defaults
`initialDelayMs = 1000`, `maxDelayMs = 10000`, `backoffMultiplier = 2`
(lines 90-95). -/
structure RetryConfig where
  maxRetries : Nat
  initialDelayMs : Nat
  maxDelayMs : Nat
  backoffMultiplier : Nat
deriving DecidableEq

/-- Abstract outcome of one attempt of `executeRequest`'s body, i.e. of one
`requestFn`/`parseFn` round trip:
* `ok v` — the response was 2xx (`response.ok`) and `parseFn` returned `v`;
* `http s` — the response arrived with non-2xx status `s`;
* `fetchTypeError` — the request threw a `TypeError` whose message contains
  "fetch" (a Node fetch transport failure);
* `authFailure` — the request threw an error whose message contains
  "Authentication failed";
* `transient` — any other thrown failure (timeout/abort, parse throw, ...). -/
inductive AttemptOutcome (T : Type) where
  | ok (v : T)
  | http (status : Nat)
  | fetchTypeError
  | authFailure
  | transient
deriving DecidableEq

/-- The error that `executeRequest` ends up throwing, tagged by how the code
classified it. `noAttempt` stands for the final
`new Error("Request failed after all retries")` fallback used when
`lastError` is still null. The `Retry-After` hint carried by the 429 error
message is not tracked (no claim mentions it). -/
inductive ReqError where
  | noAttempt
  | rateLimited
  | configuration
  | serverError (status : Nat)
  | httpGeneric (status : Nat)
  | fetchTypeError
  | authFailure
  | transient
deriving DecidableEq

/-- How one attempt's outcome flows through the try/catch of
`executeRequest` (service.ts lines 146-201): either the attempt succeeds,
or it throws an error that the catch block re-raises immediately
(`terminal`), or it throws an error that falls through to the backoff logic
(`retryable`). Status 429 raises a plain `Error` (retryable); 401/403 raise
`PluginConfigurationError`, re-thrown immediately; status `>= 500` with
attempts remaining raises "Server error"; any other non-2xx raises
"HTTP <status>" — and note that the catch block retries those too (only
`PluginConfigurationError`, fetch `TypeError`s and "Authentication failed"
messages are terminal). -/
inductive Classified (T : Type) where
  | success (v : T)
  | terminal (e : ReqError)
  | retryable (e : ReqError)
deriving DecidableEq

/-- Error classification of one attempt, mirroring service.ts lines 158-201. -/
def classify {T : Type} (cfg : RetryConfig) (attempt : Nat) :
    AttemptOutcome T → Classified T
  | .ok v => .success v
  | .http status =>
      if status = 429 then .retryable .rateLimited
      else if status = 401 ∨ status = 403 then .terminal .configuration
      else if 500 ≤ status ∧ attempt < cfg.maxRetries then
        .retryable (.serverError status)
      else .retryable (.httpGeneric status)
  | .fetchTypeError => .terminal .fetchTypeError
  | .authFailure => .terminal .authFailure
  | .transient => .retryable .transient

/-- Exponential backoff delay slept after failed attempt `attempt`
(service.ts lines 204-209):
`Math.min(initialDelayMs * backoffMultiplier ** attempt, maxDelayMs)`. -/
def backoffDelay (cfg : RetryConfig) (attempt : Nat) : Nat :=
  min (cfg.initialDelayMs * cfg.backoffMultiplier ^ attempt) cfg.maxDelayMs

deriving instance DecidableEq for Except

/-- Observable trace of one `executeRequest` call: how many attempts ran,
the backoff delays slept between attempts (in order), and the final result
(returned value or thrown error). -/
structure ExecResult (T : Type) where
  attempts : Nat
  delays : List Nat
  result : Except ReqError T
deriving DecidableEq

/-- The retry loop of `executeRequest` (service.ts lines 145-213).
`attempt` is the loop counter, `lastError` the accumulator, and `fuel`
counts the loop iterations still allowed by `attempt <= maxRetries`;
the top-level call passes `fuel = maxRetries + 1`, so the `fuel = 0` base
case (loop exited, `throw lastError`) is reached exactly when the loop
condition fails. -/
def execLoop {T : Type} (cfg : RetryConfig) (outcomes : Nat → AttemptOutcome T) :
    Nat → Nat → ReqError → ExecResult T
  | _, 0, lastError => ⟨0, [], .error lastError⟩
  | attempt, fuel + 1, _lastError =>
      match classify cfg attempt (outcomes attempt) with
      | .success v => ⟨1, [], .ok v⟩
      | .terminal e => ⟨1, [], .error e⟩
      | .retryable e =>
          if attempt < cfg.maxRetries then
            let r := execLoop cfg outcomes (attempt + 1) fuel e
            ⟨r.attempts + 1, backoffDelay cfg attempt :: r.delays, r.result⟩
          else ⟨1, [], .error e⟩

/-- `WormholeService.executeRequest` (service.ts lines 139-216), as a
function of the per-attempt outcomes of `requestFn`/`parseFn`. -/
def executeRequest {T : Type} (cfg : RetryConfig) (outcomes : Nat → AttemptOutcome T) :
    ExecResult T :=
  execLoop cfg outcomes 0 (cfg.maxRetries + 1) .noAttempt

/-! ### Volumes branch: `getVolumes`, `estimateVolumeForWindow`,
and the `includeWindows` defaulting in `getSnapshot`
(service.ts lines 107-134 and 221-270). -/

/-- The closed window enumeration "24h" | "7d" | "30d". -/
inductive Window where
  | h24
  | d7
  | d30
deriving DecidableEq

/-- `estimateVolumeForWindow` (service.ts lines 266-270): fallback volume
estimates used when the volume request fails. -/
def estimateVolumeForWindow : Window → ℚ
  | .h24 => 5000000
  | .d7 => 35000000
  | .d30 => 150000000

/-- One entry of the snapshot's `volumes` array; `measuredAt` (a wall-clock
timestamp string) is omitted. -/
structure VolumeEntry where
  window : Window
  volumeUsd : ℚ
deriving DecidableEq

/-- `WormholeService.getVolumes` (service.ts lines 221-261): one
`executeRequest` per window; `outcomes w` gives the per-attempt outcomes for
window `w`, with the success payload being the parsed `volumeUsd`
(`data.volumeUsd || data["volume" + w] || data.total || 0`). Every error —
including a `PluginConfigurationError` — is caught and replaced by the
fallback `estimateVolumeForWindow` entry. -/
def getVolumes (cfg : RetryConfig) (windows : List Window)
    (outcomes : Window → Nat → AttemptOutcome ℚ) : List VolumeEntry :=
  windows.map fun w =>
    match (executeRequest cfg (outcomes w)).result with
    | .ok volumeUsd => ⟨w, volumeUsd⟩
    | .error _ => ⟨w, estimateVolumeForWindow w⟩

/-- The volumes branch of `WormholeService.getSnapshot` (service.ts line
118): `this.getVolumes(params.includeWindows || ["24h"])`. An absent
(`undefined`) `includeWindows` is `none`; a present array is `some` (any
present array, even empty, is truthy in JavaScript, matching `Option.getD`). -/
def snapshotVolumes (cfg : RetryConfig) (includeWindows : Option (List Window))
    (outcomes : Window → Nat → AttemptOutcome ℚ) : List VolumeEntry :=
  getVolumes cfg (includeWindows.getD [Window.h24]) outcomes

/-! ### Assets, quotes, and `normalizeRate`
(service.ts lines 325-424). -/

/-- An asset (contract schema): chain, address, symbol, decimal count. -/
structure Asset where
  chainId : String
  assetId : String
  symbol : String
  decimals : Nat
deriving DecidableEq

/-- A route: source and destination assets. -/
structure Route where
  source : Asset
  destination : Asset
deriving DecidableEq

/-- The upstream quote JSON as far as the service reads it. Amount fields
are decimal strings in the API schema ("Expected response: { amountIn:
string, amountOut: string, ... }"); a present field is modelled as `some`
of its integer value (a present non-empty string is truthy in JavaScript,
so even "0" is truthy). Fee fields are JSON numbers; a present number `x`
is `some x`, and the JavaScript falsiness of the number 0 is modelled in
`jsOrNum`. Non-numeric (string-valued) fee fields and NaN are outside this
model. -/
structure QuoteData where
  amountOut : Option ℤ
  outputAmount : Option ℤ
  amount : Option ℤ
  amountOutMin : Option ℤ
  fee : Option ℚ
  totalFees : Option ℚ
  feeUsd : Option ℚ
deriving DecidableEq

/-- `apiData.amountOut || apiData.outputAmount || apiData.amount ||
apiData.amountOutMin` (service.ts line 334) on string-valued fields. -/
def extractAmountOut (d : QuoteData) : Option ℤ :=
  d.amountOut <|> d.outputAmount <|> d.amount <|> d.amountOutMin

/-- JavaScript `a || b` on optional numbers: a present 0 is falsy. -/
def jsOrNum (a b : Option ℚ) : Option ℚ :=
  match a with
  | some x => if x = 0 then b else some x
  | none => b

/-- `apiData.fee || apiData.totalFees || apiData.feeUsd || 0` (service.ts
line 360). The subsequent guard `typeof feeAmount === "number" &&
!isNaN(feeAmount)` is always true for the number this chain produces, so
`feeInUsd` is exactly this value — in particular a quote with no fee field
yields fee 0, and the `estimateFeesUsd` fallback on line 363 is unreachable
for absent or numeric fee fields. -/
def extractFee (d : QuoteData) : ℚ :=
  (jsOrNum (jsOrNum d.fee d.totalFees) d.feeUsd).getD 0

/-- `estimateFeesUsd` (service.ts lines 418-424): 5 bps of the normalized
amount, assuming a ~1 USD token price. -/
def estimateFeesUsd (amount : ℤ) (decimals : Nat) : ℚ :=
  ((amount : ℚ) / 10 ^ decimals) * (5 / 10000)

/-- The `Rate` record that `normalizeRate` builds (service.ts lines
365-373); `source`, `destination` and `quotedAt` are omitted (the first two
are passed through unchanged, the last is a wall-clock timestamp). -/
structure RateResult where
  amountIn : ℤ
  amountOut : ℤ
  effectiveRate : ℚ
  totalFeesUsd : ℚ
deriving DecidableEq

/-- `WormholeService.normalizeRate` (service.ts lines 325-374). The
JavaScript `Number(...)` conversions and float division are idealized as
exact rational arithmetic. Errors thrown (`Missing amountOut...`,
`AmountIn cannot be zero`) become `Except.error`. -/
def normalizeRate (source destination : Asset) (amountIn : ℤ)
    (apiData : QuoteData) : Except String RateResult :=
  match extractAmountOut apiData with
  | none => .error "Missing amountOut in API response"
  | some amountOutNum =>
      let amountInNormalized : ℚ := (amountIn : ℚ) / 10 ^ source.decimals
      let amountOutNormalized : ℚ := (amountOutNum : ℚ) / 10 ^ destination.decimals
      if amountInNormalized = 0 then .error "AmountIn cannot be zero"
      else
        .ok ⟨amountIn, amountOutNum, amountOutNormalized / amountInNormalized,
             extractFee apiData⟩

/-! ### Liquidity probe: `findMaxLiquidity` and `calculateSlippage`
(service.ts lines 476-557). -/

/-- The `quote.amountOut || quote.outputAmount || 0` extraction inside
`calculateSlippage` (service.ts line 547), on string-valued fields. -/
def quotedAmountOut (q : QuoteData) : ℤ :=
  (q.amountOut <|> q.outputAmount).getD 0

/-- `WormholeService.calculateSlippage` (service.ts lines 541-557).
`expectedOut` uses `BigInt` division (truncation toward zero, `Int.tdiv`);
the float expression `Math.abs((Number(expectedOut - amountOut) * 10000) /
Number(expectedOut))` is idealized in `ℚ`. -/
def calculateSlippage (route : Route) (amountIn : ℤ) (q : QuoteData) : ℚ :=
  let amountOutNum : ℤ := quotedAmountOut q
  let sourceMultiplier : ℤ := 10 ^ route.source.decimals
  let destMultiplier : ℤ := 10 ^ route.destination.decimals
  let expectedOut : ℤ := (amountIn * destMultiplier).tdiv sourceMultiplier
  |((expectedOut - amountOutNum : ℤ) : ℚ) * 10000 / (expectedOut : ℚ)|

/-- The mutable state of the binary search in `findMaxLiquidity`:
`minAmount`, `maxAmount`, `bestAmount`, all in whole-token units. -/
structure ProbeState where
  minAmount : ℤ
  maxAmount : ℤ
  bestAmount : ℤ
deriving DecidableEq

/-- Initial search state (service.ts lines 481-483): bounds 1000 to
10000000 whole tokens, `bestAmount = minAmount`. -/
def probeInit : ProbeState := ⟨1000, 10000000, 1000⟩

/-- One iteration of the `findMaxLiquidity` loop (service.ts lines
486-525). `quote a` is the result of the single `executeRequest` quote call
for `a` smallest units: `some q` when it returned JSON `q`, `none` when it
threw (after its internal retries). On success within the slippage budget
the floor rises and the midpoint is recorded as best; otherwise — slippage
exceeded or quote failed — the ceiling drops. There is no retry inside the
loop. -/
def probeStep (route : Route) (slippageBps : ℚ) (quote : ℤ → Option QuoteData)
    (s : ProbeState) : ProbeState :=
  let testAmount : ℤ := (s.minAmount + s.maxAmount) / 2
  let testAmountInSmallestUnits : ℤ := testAmount * 10 ^ route.source.decimals
  match quote testAmountInSmallestUnits with
  | some q =>
      if calculateSlippage route testAmountInSmallestUnits q ≤ slippageBps then
        ⟨testAmount + 1, s.maxAmount, testAmount⟩
      else
        ⟨s.minAmount, testAmount - 1, s.bestAmount⟩
  | none => ⟨s.minAmount, testAmount - 1, s.bestAmount⟩

/-- The `{ maxAmountIn, slippageBps }` threshold record returned by
`findMaxLiquidity`; `maxAmountIn` is in smallest units. -/
structure LiquidityThreshold where
  maxAmountIn : ℤ
  slippageBps : ℚ
deriving DecidableEq

/-- `WormholeService.findMaxLiquidity` (service.ts lines 476-536): exactly
20 iterations of the binary-search step from `probeInit`, then the best
recorded whole-token amount converted back to smallest units. -/
def findMaxLiquidity (route : Route) (slippageBps : ℚ)
    (quote : ℤ → Option QuoteData) : LiquidityThreshold :=
  ⟨((probeStep route slippageBps quote)^[20] probeInit).bestAmount *
      10 ^ route.source.decimals,
   slippageBps⟩

/-- Slippage in basis points as the specification words it: `actualSlippageBps
= |expectedOut - actualOut| / expectedOut * 10000` where `expectedOut` is
the decimal-adjusted 1:1 (no-slippage) output of `wholeTokenAmount` whole
tokens. Written from the claim's words, to be compared with
`calculateSlippage`. -/
def specSlippageBps (route : Route) (wholeTokenAmount : ℤ) (q : QuoteData) : ℚ :=
  let expectedOut : ℚ := (wholeTokenAmount : ℚ) * 10 ^ route.destination.decimals
  |expectedOut - (quotedAmountOut q : ℚ)| / expectedOut * 10000

/-- One binary-search iteration as the specification words it: midpoint of
the whole-token bounds, converted to smallest units via `10 ^ (source
decimals)`; record the midpoint as current best and raise the floor when
`specSlippageBps` is at most the threshold; lower the ceiling when the
slippage exceeds the threshold or the quote fails. Written from the
claim's words. -/
def specProbeStep (route : Route) (slippageBps : ℚ) (quote : ℤ → Option QuoteData)
    (s : ProbeState) : ProbeState :=
  let mid : ℤ := (s.minAmount + s.maxAmount) / 2
  let midInSmallestUnits : ℤ := mid * 10 ^ route.source.decimals
  match quote midInSmallestUnits with
  | some q =>
      if specSlippageBps route mid q ≤ slippageBps then
        ⟨mid + 1, s.maxAmount, mid⟩
      else
        ⟨s.minAmount, mid - 1, s.bestAmount⟩
  | none => ⟨s.minAmount, mid - 1, s.bestAmount⟩

/-- The liquidity probe as the specification words it: exactly 20
binary-search iterations over whole-token bounds starting at
`[1000, 10000000]`, returning the best recorded whole-token amount
converted back to smallest units. Written from the claim's words. -/
def specFindMaxLiquidity (route : Route) (slippageBps : ℚ)
    (quote : ℤ → Option QuoteData) : LiquidityThreshold :=
  ⟨((specProbeStep route slippageBps quote)^[20] ⟨1000, 10000000, 1000⟩).bestAmount *
      10 ^ route.source.decimals,
   slippageBps⟩

/-- The `maxAmount` trajectory of a probe whose every quote fails (or
exceeds the budget): `maxAmount` after `k` such iterations with the floor
pinned at 1000. Used to bound the midpoints reachable within 20
iterations. -/
def allFailHi : Nat → ℤ
  | 0 => 10000000
  | k + 1 => (1000 + allFailHi k) / 2 - 1

/-- Relation between the states of two probe runs over the same quote
function once their search paths have diverged (the run with the larger
threshold accepted a midpoint the other rejected): the stricter run's whole
remaining search space lies at or below the looser run's recorded best,
which never decreases again. The two final conjuncts are each run's own
shape invariant `minAmount ≤ maxAmount + 2`. -/
def DivergedInv (s1 s2 : ProbeState) : Prop :=
  s1.bestAmount ≤ s2.bestAmount ∧
  s1.maxAmount + 1 ≤ s2.bestAmount ∧
  s2.bestAmount = s2.minAmount - 1 ∧
  s1.minAmount ≤ s1.maxAmount + 2 ∧
  s2.minAmount ≤ s2.maxAmount + 2

/-- Coupled invariant after `k` iterations of two probe runs with
thresholds `θ1 ≤ θ2` over the same quote function: either they have
diverged (`DivergedInv`), or they are still in the same state, which
satisfies the shape invariant and either has recorded a success
(`bestAmount = minAmount - 1`) or is exactly the all-failures state
`⟨1000, allFailHi k, 1000⟩`. -/
def CoupledInv (k : Nat) (s1 s2 : ProbeState) : Prop :=
  DivergedInv s1 s2 ∨
    (s1 = s2 ∧ s1.minAmount ≤ s1.maxAmount + 2 ∧
      (s1.bestAmount = s1.minAmount - 1 ∨ s1 = ⟨1000, allFailHi k, 1000⟩))

/-! ### Rate limiter: `RateLimiter.waitForSlot` and the constructor's
`minIntervalMs` (service.ts lines 26-48 and 84-96). -/

/-- `minIntervalMs = Math.max(100, 1000 / requestsPerSecond)` from the
`WormholeService` constructor (service.ts line 86). -/
def serviceMinIntervalMs (requestsPerSecond : ℚ) : ℚ :=
  max 100 (1000 / requestsPerSecond)

/-- The time at which the `setTimeout` inside `waitForSlot` (service.ts
lines 36-47) is scheduled to fire for a call entering at `now` with the
stored `lastCallTime`: `now + Math.max(0, minIntervalMs - (now -
lastCallTime))`. -/
def waitForSlotResolveTime (minIntervalMs lastCallTime now : ℚ) : ℚ :=
  now + max 0 (minIntervalMs - (now - lastCallTime))

/-- A trace of sequential `waitForSlot` calls against one `RateLimiter`
whose stored `lastCallTime` is the first index. Each list element is
`(start, resolve)`: the call enters at `start` (no earlier than the
previous resolution, which also wrote `lastCallTime`), its `setTimeout`
callback runs at `resolve` — no earlier than the scheduled
`waitForSlotResolveTime` — and the callback stores `Date.now() = resolve`
as the new `lastCallTime` for the next call. -/
inductive SeqCalls (minIntervalMs : ℚ) : ℚ → List (ℚ × ℚ) → Prop where
  | nil (lastCallTime : ℚ) : SeqCalls minIntervalMs lastCallTime []
  | cons (lastCallTime startT resolveT : ℚ) (rest : List (ℚ × ℚ)) :
      lastCallTime ≤ startT →
      waitForSlotResolveTime minIntervalMs lastCallTime startT ≤ resolveT →
      SeqCalls minIntervalMs resolveT rest →
      SeqCalls minIntervalMs lastCallTime ((startT, resolveT) :: rest)

/-! ### Health probe: `ping` in both service variants
(service.ts lines 637-666; wormhole-data-provider service lines 565-608). -/

/-- The `{ status }` payload of `ping`; the ISO-8601 `timestamp` field is a
wall-clock string and is omitted. -/
structure PingResponse where
  status : String
deriving DecidableEq

/-- `WormholeService.ping` of `packages/wormhole-plugin/src/service.ts`
(lines 637-666). The body runs `executeRequest` against `/v1/health`; the
surrounding `Effect.tryPromise({try, catch})` maps a *rejection* of the
promise through `catch` onto the Effect's **error channel** — so when the
request fails after retries, the returned Effect *fails* with the value
`{status: "ok", timestamp}` rather than succeeding with it. `Except.ok` is
the Effect's success channel, `Except.error` its failure channel. -/
def ping (cfg : RetryConfig) (outcomes : Nat → AttemptOutcome PingResponse) :
    Except PingResponse PingResponse :=
  match (executeRequest cfg outcomes).result with
  | .ok _ => .ok ⟨"ok"⟩
  | .error _ => .error ⟨"ok"⟩

/-- `WormholeService.ping` of the `wormhole-data-provider` variant (lines
565-608): a single fetch (no retry loop) wrapped in `Effect.tryPromise`,
then piped through `Effect.catchAll(() => Effect.succeed({status: "ok"}))`,
which moves every failure back to the success channel. `fetchResult` is the
outcome of the single health fetch. -/
def pingResilient (fetchResult : Except String Unit) : Except String PingResponse :=
  match (match fetchResult with
         | .ok _ => (.ok ⟨"ok"⟩ : Except String PingResponse)
         | .error e => .error e) with
  | .ok v => .ok v
  | .error _ => .ok ⟨"ok"⟩

/-! ### Helper lemmas. -/

lemma classified_retryable_of_failure {T : Type} (cfg : RetryConfig) (i : Nat)
    (o : AttemptOutcome T)
    (h : (∃ s, 500 ≤ s ∧ o = .http s) ∨ o = .transient) :
    ∃ e, classify cfg i o = .retryable e := by
  rcases h with ⟨s, hs, rfl⟩ | rfl
  · simp only [classify]
    split_ifs with h1 h2 h3
    · exact ⟨_, rfl⟩
    · rcases h2 with h2 | h2 <;> omega
    · exact ⟨_, rfl⟩
    · exact ⟨_, rfl⟩
  · exact ⟨.transient, rfl⟩

lemma execLoop_retry_then_ok {T : Type} (cfg : RetryConfig)
    (outcomes : Nat → AttemptOutcome T) (v : T) :
    ∀ (k a fuel : Nat) (e : ReqError), k < fuel → a + k ≤ cfg.maxRetries →
      (∀ j, j < k → ∃ e2, classify cfg (a + j) (outcomes (a + j)) = .retryable e2) →
      classify cfg (a + k) (outcomes (a + k)) = .success v →
      execLoop cfg outcomes a fuel e =
        ⟨k + 1, (List.range k).map (fun j => backoffDelay cfg (a + j)), .ok v⟩ := by
  intro k
  induction k with
  | zero =>
      intro a fuel e hfuel hle hret hok
      match fuel, hfuel with
      | fuel + 1, _ =>
        rw [Nat.add_zero] at hok
        simp [execLoop, hok]
  | succ k ih =>
      intro a fuel e hfuel hle hret hok
      match fuel, hfuel with
      | fuel + 1, hfuel =>
        obtain ⟨e2, he2⟩ := hret 0 (Nat.succ_pos k)
        rw [Nat.add_zero] at he2
        have ha : a < cfg.maxRetries := by omega
        have hrec := ih (a + 1) fuel e2 (by omega) (by omega)
          (fun j hj => by
            have h := hret (j + 1) (by omega)
            rwa [show a + (j + 1) = a + 1 + j by omega] at h)
          (by rwa [show a + 1 + k = a + (k + 1) by omega])
        have hlist : (List.range (k + 1)).map (fun j => backoffDelay cfg (a + j)) =
            backoffDelay cfg a :: (List.range k).map (fun j => backoffDelay cfg (a + 1 + j)) := by
          rw [List.range_succ_eq_map, List.map_cons, List.map_map, Nat.add_zero]
          refine congrArg _ (List.map_congr_left fun j _ => ?_)
          simp only [Function.comp_apply, Nat.succ_eq_add_one]
          rw [show a + (j + 1) = a + 1 + j by omega]
        simp only [execLoop, he2, if_pos ha, hrec, hlist]

lemma calculateSlippage_eq_spec (route : Route) (mid : ℤ) (q : QuoteData)
    (h : 0 < mid) :
    calculateSlippage route (mid * 10 ^ route.source.decimals) q =
      specSlippageBps route mid q := by
  simp only [calculateSlippage, specSlippageBps]
  have hS : (0 : ℤ) < 10 ^ route.source.decimals := by positivity
  have hexp : (mid * 10 ^ route.source.decimals * 10 ^ route.destination.decimals).tdiv
      (10 ^ route.source.decimals) = mid * 10 ^ route.destination.decimals := by
    rw [mul_right_comm]
    exact Int.mul_tdiv_cancel _ (ne_of_gt hS)
  rw [hexp]
  have hmidQ : (0 : ℚ) < (mid : ℚ) := by exact_mod_cast h
  have hE : (0 : ℚ) < (mid : ℚ) * 10 ^ route.destination.decimals := by positivity
  push_cast
  rw [abs_div, abs_mul, abs_of_pos hE,
    show |(10000 : ℚ)| = 10000 from abs_of_pos (by norm_num), mul_div_right_comm]

lemma probeStep_spec_eq (route : Route) (θ : ℚ) (quote : ℤ → Option QuoteData)
    (s : ProbeState) (h1 : 1000 ≤ s.minAmount) (h2 : s.minAmount ≤ s.maxAmount + 2) :
    probeStep route θ quote s = specProbeStep route θ quote s ∧
      1000 ≤ (probeStep route θ quote s).minAmount ∧
      (probeStep route θ quote s).minAmount ≤ (probeStep route θ quote s).maxAmount + 2 := by
  obtain ⟨lo, hi, b⟩ := s
  simp only at h1 h2
  have hmid1 : lo - 1 ≤ (lo + hi) / 2 := by omega
  have hmid2 : (lo + hi) / 2 ≤ hi + 1 := by omega
  have hmidpos : 0 < (lo + hi) / 2 := by omega
  cases hq : quote ((lo + hi) / 2 * 10 ^ route.source.decimals) with
  | none =>
      simp only [probeStep, specProbeStep, hq]
      exact ⟨trivial, h1, by omega⟩
  | some q =>
      simp only [probeStep, specProbeStep, hq]
      rw [calculateSlippage_eq_spec route _ q hmidpos]
      split_ifs with hslip
      · exact ⟨rfl, show (1000 : ℤ) ≤ (lo + hi) / 2 + 1 by omega,
          show ((lo + hi) / 2 + 1 : ℤ) ≤ hi + 2 by omega⟩
      · exact ⟨rfl, show (1000 : ℤ) ≤ lo from h1,
          show (lo : ℤ) ≤ (lo + hi) / 2 - 1 + 2 by omega⟩

lemma probe_iterate_spec_eq (route : Route) (θ : ℚ) (quote : ℤ → Option QuoteData) :
    ∀ n : Nat,
      (probeStep route θ quote)^[n] probeInit = (specProbeStep route θ quote)^[n] probeInit ∧
      1000 ≤ ((probeStep route θ quote)^[n] probeInit).minAmount ∧
      ((probeStep route θ quote)^[n] probeInit).minAmount ≤
        ((probeStep route θ quote)^[n] probeInit).maxAmount + 2 := by
  intro n
  induction n with
  | zero => exact ⟨rfl, by norm_num [probeInit], by norm_num [probeInit]⟩
  | succ n ih =>
      obtain ⟨heq, hlo, hwf⟩ := ih
      rw [Function.iterate_succ_apply', Function.iterate_succ_apply', ← heq]
      exact probeStep_spec_eq route θ quote _ hlo hwf

/-! ### Claim theorems. -/

/-- Claim C1: with the default backoff configuration (initialDelay 1000 ms,
multiplier 2, maxDelay 10000 ms) and any `maxRetries = m`, an operation
whose first `m` attempts each fail retryably (HTTP status ≥ 500, or a
retryable transport/timeout failure) and whose next attempt succeeds makes
`executeRequest` return the success value after exactly `m + 1` attempts,
with the backoff delay inserted before attempt `i` (0-indexed, `i ≥ 1`)
equal to `min(initialDelay * multiplier^(i-1), maxDelay)` — the `j`-th
element of the delay list below is the delay before attempt `j + 1`. -/
theorem c1_executeRequest_retry_backoff {T : Type} (m : Nat) (v : T)
    (outcomes : Nat → AttemptOutcome T)
    (hfail : ∀ i, i < m → (∃ s, 500 ≤ s ∧ outcomes i = .http s) ∨ outcomes i = .transient)
    (hok : outcomes m = .ok v) :
    executeRequest ⟨m, 1000, 10000, 2⟩ outcomes =
      ⟨m + 1, (List.range m).map (fun j => min (1000 * 2 ^ j) 10000), .ok v⟩ := by
  have hmain := execLoop_retry_then_ok ⟨m, 1000, 10000, 2⟩ outcomes v m 0 (m + 1)
    .noAttempt (by omega) (by simp)
    (fun j hj => by
      simpa using classified_retryable_of_failure ⟨m, 1000, 10000, 2⟩ j
        (outcomes j) (hfail j hj))
    (by simp [hok, classify])
  simpa [executeRequest, backoffDelay] using hmain

/-- Claim C1 witness: `maxRetries = 2`, two 500-failures then success
with value 7. -/
theorem c1_witness :
    executeRequest ⟨2, 1000, 10000, 2⟩
        (fun i => if i < 2 then AttemptOutcome.http 500 else .ok (7 : ℕ)) =
      ⟨2 + 1, (List.range 2).map (fun j => min (1000 * 2 ^ j) 10000), .ok 7⟩ :=
  c1_executeRequest_retry_backoff 2 7 _
    (fun i hi => Or.inl ⟨500, le_refl 500, by simp [hi]⟩)
    (by norm_num)

/-- Claim C2, counterexample: with the default configuration, a 401
response does make `executeRequest` raise the configuration error after
exactly one attempt — but `getVolumes` (a branch of the public snapshot
operation, service.ts lines 249-257) catches it and pushes the fallback
volume estimate instead, so the `ConfigurationError` is replaced by a
fallback value and never surfaces to the snapshot caller, contradicting the
claim's propagation half. -/
theorem c2_counterexample :
    executeRequest ⟨3, 1000, 10000, 2⟩ (fun _ => (AttemptOutcome.http 401 : AttemptOutcome ℚ)) =
      ⟨1, [], .error .configuration⟩ ∧
    getVolumes ⟨3, 1000, 10000, 2⟩ [.h24] (fun _ _ => .http 401) =
      [⟨.h24, 5000000⟩] := by
  exact ⟨rfl, rfl⟩

/-- Claim C2, amended: whenever an upstream request is answered 401 or 403,
`executeRequest` performs exactly 1 attempt (no retry, no backoff delay)
and raises the configuration error; however, the snapshot operation's
volume branch catches every error and substitutes the fallback estimate, so
the configuration error does not surface to the snapshot caller. -/
theorem c2_unauthorized_one_attempt (cfg : RetryConfig) (w : Window)
    (outcomes : Nat → AttemptOutcome ℚ)
    (h : outcomes 0 = .http 401 ∨ outcomes 0 = .http 403) :
    executeRequest cfg outcomes = ⟨1, [], .error .configuration⟩ ∧
    getVolumes cfg [w] (fun _ => outcomes) = [⟨w, estimateVolumeForWindow w⟩] := by
  have hcls : classify cfg 0 (outcomes 0) = .terminal .configuration := by
    rcases h with h | h <;> simp [h, classify]
  have hexec : executeRequest cfg outcomes = ⟨1, [], .error .configuration⟩ := by
    unfold executeRequest
    rw [show cfg.maxRetries + 1 = cfg.maxRetries + 1 from rfl]
    simp only [execLoop, hcls]
  refine ⟨hexec, ?_⟩
  simp [getVolumes, hexec]

/-- Claim C2 witness: a 401 on the first attempt of the 24h-volume branch. -/
theorem c2_witness :
    executeRequest ⟨3, 1000, 10000, 2⟩ (fun _ => (AttemptOutcome.http 403 : AttemptOutcome ℚ)) =
      ⟨1, [], .error .configuration⟩ ∧
    getVolumes ⟨3, 1000, 10000, 2⟩ [.d7] (fun _ _ => .http 403) =
      [⟨.d7, estimateVolumeForWindow .d7⟩] :=
  c2_unauthorized_one_attempt ⟨3, 1000, 10000, 2⟩ .d7 (fun _ => .http 403)
    (Or.inr rfl)

/-- Claim C5, counterexample: with `amountIn = 1 > 0`, 0-decimal assets and
an upstream `amountOut` of "0" (a truthy string, which the extraction chain
accepts), `normalizeRate` succeeds with `effectiveRate = 0`, which is not
positive — so "returns a positive effectiveRate for every amountIn > 0"
fails as stated; positivity needs the extracted `amountOut` to be positive. -/
theorem c5_counterexample :
    normalizeRate ⟨"1", "a", "T", 0⟩ ⟨"2", "b", "T", 0⟩ 1
        ⟨some 0, none, none, none, none, none, none⟩ =
      .ok ⟨1, 0, 0, 0⟩ ∧ ¬ (0 : ℚ) < 0 := by
  constructor
  · simp [normalizeRate, extractAmountOut, extractFee, jsOrNum]
  · exact lt_irrefl 0

/-- Claim C5, amended: for every `amountIn > 0` and non-negative decimal
counts, `normalizeRate` succeeds and returns a finite rational
`effectiveRate` that is positive whenever the quote's extracted `amountOut`
is positive (it is 0 for `amountOut = 0`); and for every positive integer
`k`, normalizing `(k·amountIn, k·amountOut)` yields the same
`effectiveRate` as normalizing `(amountIn, amountOut)`. -/
theorem c5_normalizeRate_positive_and_scale_invariant
    (source destination : Asset) (amountIn out k : ℤ) (q qk : QuoteData)
    (hq : extractAmountOut q = some out)
    (hqk : extractAmountOut qk = some (k * out))
    (hin : 0 < amountIn) (hk : 0 < k) :
    ∃ r rk : RateResult,
      normalizeRate source destination amountIn q = .ok r ∧
      normalizeRate source destination (k * amountIn) qk = .ok rk ∧
      (0 < out → 0 < r.effectiveRate) ∧
      rk.effectiveRate = r.effectiveRate := by
  have hsrc : (0 : ℚ) < 10 ^ source.decimals := by positivity
  have hdst : (0 : ℚ) < 10 ^ destination.decimals := by positivity
  have hinQ : (0 : ℚ) < (amountIn : ℚ) := by exact_mod_cast hin
  have hkQ : (0 : ℚ) < (k : ℚ) := by exact_mod_cast hk
  have hne : ¬ ((amountIn : ℚ) / 10 ^ source.decimals = 0) := by
    have : (0 : ℚ) < (amountIn : ℚ) / 10 ^ source.decimals := div_pos hinQ hsrc
    exact ne_of_gt this
  have hne2 : ¬ (((k * amountIn : ℤ) : ℚ) / 10 ^ source.decimals = 0) := by
    have : (0 : ℚ) < ((k * amountIn : ℤ) : ℚ) / 10 ^ source.decimals := by
      apply div_pos _ hsrc
      push_cast
      exact mul_pos hkQ hinQ
    exact ne_of_gt this
  have h1 : normalizeRate source destination amountIn q =
      .ok ⟨amountIn, out,
        (out : ℚ) / 10 ^ destination.decimals / ((amountIn : ℚ) / 10 ^ source.decimals),
        extractFee q⟩ := by
    simp only [normalizeRate, hq, if_neg hne]
  have h2 : normalizeRate source destination (k * amountIn) qk =
      .ok ⟨k * amountIn, k * out,
        ((k * out : ℤ) : ℚ) / 10 ^ destination.decimals /
          (((k * amountIn : ℤ) : ℚ) / 10 ^ source.decimals),
        extractFee qk⟩ := by
    simp only [normalizeRate, hqk, if_neg hne2]
  refine ⟨_, _, h1, h2, ?_, ?_⟩
  · intro hout
    have houtQ : (0 : ℚ) < (out : ℚ) := by exact_mod_cast hout
    exact div_pos (div_pos houtQ hdst) (div_pos hinQ hsrc)
  · show ((k * out : ℤ) : ℚ) / 10 ^ destination.decimals /
        (((k * amountIn : ℤ) : ℚ) / 10 ^ source.decimals) =
      (out : ℚ) / 10 ^ destination.decimals / ((amountIn : ℚ) / 10 ^ source.decimals)
    have hSne : ((10 : ℚ) ^ source.decimals) ≠ 0 := ne_of_gt hsrc
    have hDne : ((10 : ℚ) ^ destination.decimals) ≠ 0 := ne_of_gt hdst
    have hkne : (k : ℚ) ≠ 0 := ne_of_gt hkQ
    have hinne : (amountIn : ℚ) ≠ 0 := ne_of_gt hinQ
    push_cast
    rw [div_div_div_comm, div_div_div_comm ((out : ℚ))]
    field_simp
    ring

/-- Claim C5 witness: `amountIn = 2`, `amountOut = 5`, scale factor 3,
decimals 1 and 2. -/
theorem c5_witness :
    ∃ r rk : RateResult,
      normalizeRate ⟨"1", "a", "T", 1⟩ ⟨"2", "b", "T", 2⟩ 2
          ⟨some 5, none, none, none, none, none, none⟩ = .ok r ∧
      normalizeRate ⟨"1", "a", "T", 1⟩ ⟨"2", "b", "T", 2⟩ (3 * 2)
          ⟨some (3 * 5), none, none, none, none, none, none⟩ = .ok rk ∧
      (0 < (5 : ℤ) → 0 < r.effectiveRate) ∧
      rk.effectiveRate = r.effectiveRate :=
  c5_normalizeRate_positive_and_scale_invariant _ _ 2 5 3 _ _ rfl rfl
    (by norm_num) (by norm_num)

/-- Claim C6: for every call with `amountIn = 0`, any decimal counts and
any supplied `amountOut`, `normalizeRate` fails with the division-by-zero
guard error `"AmountIn cannot be zero"`; since it fails, it never returns
an `effectiveRate` at all (in particular, never NaN or infinity). -/
theorem c6_zero_amountIn_divisionByZero (source destination : Asset)
    (q : QuoteData) (out : ℤ) (hq : extractAmountOut q = some out) :
    normalizeRate source destination 0 q = .error "AmountIn cannot be zero" := by
  simp [normalizeRate, hq]

/-- Claim C6 witness: a zero `amountIn` against a USDC-style 6-decimal
route with a present `amountOut`. -/
theorem c6_witness :
    normalizeRate ⟨"1", "0xA0b8", "USDC", 6⟩ ⟨"137", "0x2791", "USDC", 6⟩ 0
        ⟨some 995000, none, none, none, none, none, none⟩ =
      .error "AmountIn cannot be zero" :=
  c6_zero_amountIn_divisionByZero _ _ _ 995000 rfl

/-- Claim C7, counterexample: for the USDC(1,6) → USDC(137,6) route with
`amountIn = "1000000"` and an upstream quote of `amountOut = "995000"` with
no fee field, the code returns `effectiveRate = 0.995` but
`totalFeesUsd = 0`: the absent fee defaults to the number 0
(`apiData.fee || ... || 0`), which passes the `typeof === "number"` guard,
so no fee is derived — not ≈ 0.005 as claimed. Even the 5-bps estimator
`estimateFeesUsd` (which this path never reaches) would give 0.0005, not
0.005. -/
theorem c7_counterexample :
    normalizeRate ⟨"1", "0xA0b8", "USDC", 6⟩ ⟨"137", "0x2791", "USDC", 6⟩ 1000000
        ⟨some 995000, none, none, none, none, none, none⟩ =
      .ok ⟨1000000, 995000, 995 / 1000, 0⟩ ∧
    estimateFeesUsd 1000000 6 = 1 / 2000 := by
  constructor
  · simp only [normalizeRate, extractAmountOut, extractFee, jsOrNum]
    norm_num
  · unfold estimateFeesUsd
    norm_num

/-- Claim C7, amended: for the USDC(chain 1, 6 decimals) → USDC(chain 137,
6 decimals) route with `amountIn = "1000000"` and an upstream quote of
`amountOut = "995000"` supplying no fee field, `normalizeRate` produces
`effectiveRate = 0.995` and `totalFeesUsd = 0` (the missing fee defaults to
the number 0; no fee is derived). -/
theorem c7_usdc_route_rate :
    normalizeRate ⟨"1", "0xA0b86991c6218b36c1d19D4a2e9Eb0cE3606eB48", "USDC", 6⟩
        ⟨"137", "0x2791Bca1f2de4661ED88A30C99A7a9449Aa84174", "USDC", 6⟩ 1000000
        ⟨some 995000, none, none, none, none, none, none⟩ =
      .ok ⟨1000000, 995000, 995 / 1000, 0⟩ := by
  simp only [normalizeRate, extractAmountOut, extractFee, jsOrNum]
  norm_num

/-- Claim C9: under a total upstream outage (every attempt fails with a
transport error), the `ping` of `packages/wormhole-plugin/src/service.ts`
does **not** return `{status: "ok"}` to its caller: `Effect.tryPromise`'s
`catch` maps the failure onto the Effect's error channel, so the returned
Effect fails (with the odd error value `{status: "ok"}`) and
`Effect.runPromise(service.ping())` rejects. The `wormhole-data-provider`
variant, which pipes through `Effect.catchAll`, succeeds as the claim,
the code comment and the unit test expect. -/
theorem c9_ping_raises_on_outage :
    ping ⟨3, 1000, 10000, 2⟩ (fun _ => .transient) = .error ⟨"ok"⟩ ∧
    pingResilient (.error "connection refused") = .ok ⟨"ok"⟩ := by
  exact ⟨rfl, rfl⟩

/-- Claim C10: when `includeWindows` is omitted (`undefined`) in a
`getSnapshot` call, the snapshot's `volumes` sequence has exactly one
entry, whose window is "24h" — whatever the upstream does (the entry is the
parsed volume on success and the fallback estimate on failure). -/
theorem c10_default_window (cfg : RetryConfig)
    (outcomes : Window → Nat → AttemptOutcome ℚ) :
    ∃ v : VolumeEntry, snapshotVolumes cfg none outcomes = [v] ∧ v.window = .h24 := by
  unfold snapshotVolumes getVolumes
  simp only [Option.getD, List.map]
  cases (executeRequest cfg (outcomes .h24)).result <;> exact ⟨_, rfl, rfl⟩

/-- Claim C3: for every route, slippage threshold and quote behavior
(successes with arbitrary `amountOut`, or failures), `findMaxLiquidity` is
exactly the 20-iteration binary search the specification describes:
whole-token bounds starting at `[1000, 10000000]`; each iteration converts
the midpoint to smallest units via `10^(source decimals)` and queries the
quote once (no retry in the loop); `actualSlippageBps = |expectedOut -
actualOut| / expectedOut * 10000` is measured against the decimal-adjusted
1:1 expected output; the midpoint is recorded as best and the floor raised
when the slippage is within the threshold, the ceiling lowered when it
exceeds the threshold or the quote fails; and the best recorded whole-token
amount is returned converted back to smallest units. -/
theorem c3_findMaxLiquidity_refines_spec (route : Route) (slippageBps : ℚ)
    (quote : ℤ → Option QuoteData) :
    findMaxLiquidity route slippageBps quote =
      specFindMaxLiquidity route slippageBps quote := by
  unfold findMaxLiquidity specFindMaxLiquidity
  rw [(probe_iterate_spec_eq route slippageBps quote 20).1]
  rfl

lemma allFailHi_ge_1000 : ∀ k, k < 20 → 1000 ≤ allFailHi k := by decide

lemma divergedInv_step_left (route : Route) (θ : ℚ) (quote : ℤ → Option QuoteData)
    (s1 s2 : ProbeState) (h : DivergedInv s1 s2) :
    DivergedInv (probeStep route θ quote s1) s2 := by
  obtain ⟨lo1, hi1, b1⟩ := s1
  obtain ⟨hb, hhib, hb2, hw1, hw2⟩ := h
  simp only at hb hhib hw1
  have hm1 : lo1 - 1 ≤ (lo1 + hi1) / 2 := by omega
  have hm2 : (lo1 + hi1) / 2 ≤ hi1 + 1 := by omega
  cases hq : quote ((lo1 + hi1) / 2 * 10 ^ route.source.decimals) with
  | none =>
      simp only [probeStep, hq]
      exact ⟨hb, show (lo1 + hi1) / 2 - 1 + 1 ≤ s2.bestAmount by omega, hb2,
        show lo1 ≤ (lo1 + hi1) / 2 - 1 + 2 by omega, hw2⟩
  | some q =>
      simp only [probeStep, hq]
      split_ifs with hs
      · exact ⟨show (lo1 + hi1) / 2 ≤ s2.bestAmount by omega,
          show hi1 + 1 ≤ s2.bestAmount from hhib, hb2,
          show (lo1 + hi1) / 2 + 1 ≤ hi1 + 2 by omega, hw2⟩
      · exact ⟨hb, show (lo1 + hi1) / 2 - 1 + 1 ≤ s2.bestAmount by omega, hb2,
          show lo1 ≤ (lo1 + hi1) / 2 - 1 + 2 by omega, hw2⟩

lemma divergedInv_step_right (route : Route) (θ : ℚ) (quote : ℤ → Option QuoteData)
    (s1 s2 : ProbeState) (h : DivergedInv s1 s2) :
    DivergedInv s1 (probeStep route θ quote s2) := by
  obtain ⟨lo2, hi2, b2⟩ := s2
  obtain ⟨hb, hhib, hb2, hw1, hw2⟩ := h
  simp only at hb hhib hb2 hw2
  have hm1 : lo2 - 1 ≤ (lo2 + hi2) / 2 := by omega
  have hm2 : (lo2 + hi2) / 2 ≤ hi2 + 1 := by omega
  cases hq : quote ((lo2 + hi2) / 2 * 10 ^ route.source.decimals) with
  | none =>
      simp only [probeStep, hq]
      exact ⟨hb, hhib, show b2 = lo2 - 1 from hb2, hw1,
        show lo2 ≤ (lo2 + hi2) / 2 - 1 + 2 by omega⟩
  | some q =>
      simp only [probeStep, hq]
      split_ifs with hs
      · exact ⟨show s1.bestAmount ≤ (lo2 + hi2) / 2 by omega,
          show s1.maxAmount + 1 ≤ (lo2 + hi2) / 2 by omega,
          show (lo2 + hi2) / 2 = (lo2 + hi2) / 2 + 1 - 1 by omega, hw1,
          show (lo2 + hi2) / 2 + 1 ≤ hi2 + 2 by omega⟩
      · exact ⟨hb, hhib, show b2 = lo2 - 1 from hb2, hw1,
          show lo2 ≤ (lo2 + hi2) / 2 - 1 + 2 by omega⟩

lemma coupled_step_equal (route : Route) (quote : ℤ → Option QuoteData)
    (θ1 θ2 : ℚ) (hθ : θ1 ≤ θ2) (k : Nat) (hk : 1000 ≤ allFailHi k)
    (s : ProbeState) (hwf : s.minAmount ≤ s.maxAmount + 2)
    (hb : s.bestAmount = s.minAmount - 1 ∨ s = ⟨1000, allFailHi k, 1000⟩) :
    CoupledInv (k + 1) (probeStep route θ1 quote s) (probeStep route θ2 quote s) := by
  obtain ⟨lo, hi, b⟩ := s
  simp only at hwf
  have hm1 : lo - 1 ≤ (lo + hi) / 2 := by omega
  have hm2 : (lo + hi) / 2 ≤ hi + 1 := by omega
  have hbits : b = lo - 1 ∨ (lo = 1000 ∧ hi = allFailHi k ∧ b = 1000) := by
    rcases hb with hb | hb
    · exact Or.inl hb
    · injection hb with hA hB hC
      exact Or.inr ⟨hA, hB, hC⟩
  have hbt : b ≤ (lo + hi) / 2 := by rcases hbits with hb2 | ⟨hA, hB, hC⟩ <;> omega
  cases hq : quote ((lo + hi) / 2 * 10 ^ route.source.decimals) with
  | none =>
      right
      simp only [probeStep, hq]
      refine ⟨trivial, show lo ≤ (lo + hi) / 2 - 1 + 2 by omega, ?_⟩
      rcases hbits with hb2 | ⟨hA, hB, hC⟩
      · exact Or.inl hb2
      · subst hA hB hC
        exact Or.inr rfl
  | some q =>
      by_cases h1 : calculateSlippage route ((lo + hi) / 2 * 10 ^ route.source.decimals) q ≤ θ1
      · have h2 : calculateSlippage route ((lo + hi) / 2 * 10 ^ route.source.decimals) q ≤ θ2 :=
          le_trans h1 hθ
        right
        simp only [probeStep, hq, if_pos h1, if_pos h2]
        exact ⟨trivial, show (lo + hi) / 2 + 1 ≤ hi + 2 by omega,
          Or.inl (show (lo + hi) / 2 = (lo + hi) / 2 + 1 - 1 by omega)⟩
      · by_cases h2 : calculateSlippage route ((lo + hi) / 2 * 10 ^ route.source.decimals) q ≤ θ2
        · left
          simp only [probeStep, hq, if_neg h1, if_pos h2]
          exact ⟨hbt, show (lo + hi) / 2 - 1 + 1 ≤ (lo + hi) / 2 by omega,
            show (lo + hi) / 2 = (lo + hi) / 2 + 1 - 1 by omega,
            show lo ≤ (lo + hi) / 2 - 1 + 2 by omega,
            show (lo + hi) / 2 + 1 ≤ hi + 2 by omega⟩
        · right
          simp only [probeStep, hq, if_neg h1, if_neg h2]
          refine ⟨trivial, show lo ≤ (lo + hi) / 2 - 1 + 2 by omega, ?_⟩
          rcases hbits with hb2 | ⟨hA, hB, hC⟩
          · exact Or.inl hb2
          · subst hA hB hC
            exact Or.inr rfl

lemma coupledInv_iterate (route : Route) (quote : ℤ → Option QuoteData)
    (θ1 θ2 : ℚ) (hθ : θ1 ≤ θ2) :
    ∀ n, n ≤ 20 → CoupledInv n ((probeStep route θ1 quote)^[n] probeInit)
      ((probeStep route θ2 quote)^[n] probeInit) := by
  intro n
  induction n with
  | zero =>
      intro _
      exact Or.inr ⟨rfl, by norm_num [probeInit], Or.inr rfl⟩
  | succ n ih =>
      intro hn
      have hinv := ih (by omega)
      rw [Function.iterate_succ_apply', Function.iterate_succ_apply']
      rcases hinv with hdiv | ⟨heq, hwf, hb⟩
      · exact Or.inl (divergedInv_step_left route θ1 quote _ _
          (divergedInv_step_right route θ2 quote _ _ hdiv))
      · rw [← heq]
        exact coupled_step_equal route quote θ1 θ2 hθ n
          (allFailHi_ge_1000 n (by omega)) _ hwf hb

lemma probe_best_le (route : Route) (quote : ℤ → Option QuoteData)
    (θ1 θ2 : ℚ) (hθ : θ1 ≤ θ2) :
    ((probeStep route θ1 quote)^[20] probeInit).bestAmount ≤
      ((probeStep route θ2 quote)^[20] probeInit).bestAmount := by
  rcases coupledInv_iterate route quote θ1 θ2 hθ 20 (le_refl 20) with hdiv | ⟨heq, -, -⟩
  · exact hdiv.1
  · rw [heq]

/-- Claim C4: for every route and quote behavior whose realized slippage is
non-decreasing in the requested amount (idealized monotonic market), the
`maxAmountIn` found by the liquidity probe at the 100 bps threshold is at
least the one found at the 50 bps threshold. (The coupled-run invariant
used in the proof shows this bound for the concrete bounds/iteration count
of the probe for every quote behavior; the monotone-market hypothesis of
the claim is therefore not even needed.) -/
theorem c4_liquidity_threshold_monotone (route : Route)
    (quote : ℤ → Option QuoteData)
    (_hmono : ∀ a b : ℤ, ∀ qa qb : QuoteData, a ≤ b →
      quote a = some qa → quote b = some qb →
      calculateSlippage route a qa ≤ calculateSlippage route b qb) :
    (findMaxLiquidity route 50 quote).maxAmountIn ≤
      (findMaxLiquidity route 100 quote).maxAmountIn := by
  unfold findMaxLiquidity
  have hb := probe_best_le route quote 50 100 (by norm_num)
  have hp : (0 : ℤ) ≤ 10 ^ route.source.decimals := by positivity
  exact mul_le_mul_of_nonneg_right hb hp

/-- Claim C4 witness: a USDC route on which every probe quote fails (a
vacuously monotone market). -/
theorem c4_witness :
    (findMaxLiquidity ⟨⟨"1", "0xA0b8", "USDC", 6⟩, ⟨"137", "0x2791", "USDC", 6⟩⟩ 50
        (fun _ => none)).maxAmountIn ≤
      (findMaxLiquidity ⟨⟨"1", "0xA0b8", "USDC", 6⟩, ⟨"137", "0x2791", "USDC", 6⟩⟩ 100
        (fun _ => none)).maxAmountIn :=
  c4_liquidity_threshold_monotone _ _
    (fun _ _ _ _ _ h1 _ => Option.noConfusion h1)

lemma waitForSlot_ge_start (minI last now : ℚ) :
    now ≤ waitForSlotResolveTime minI last now := by
  unfold waitForSlotResolveTime
  have h := le_max_left (0 : ℚ) (minI - (now - last))
  linarith

lemma waitForSlot_ge_last (minI last now : ℚ) :
    last + minI ≤ waitForSlotResolveTime minI last now := by
  unfold waitForSlotResolveTime
  have h := le_max_right (0 : ℚ) (minI - (now - last))
  linarith

lemma seqCalls_getLast_ge (minI : ℚ) :
    ∀ (calls : List (ℚ × ℚ)) (last sN rN : ℚ), SeqCalls minI last calls →
      calls.getLast? = some (sN, rN) → last + calls.length * minI ≤ rN := by
  intro calls
  induction calls with
  | nil =>
      intro last sN rN _ hlast
      simp at hlast
  | cons p rest ih =>
      intro last sN rN hseq hlast
      cases hseq with
      | cons _ s r _ hls hres hrest =>
          have hstep : last + minI ≤ r := le_trans (waitForSlot_ge_last minI last s) hres
          cases rest with
          | nil =>
              simp only [List.getLast?_singleton, Option.some.injEq, Prod.mk.injEq] at hlast
              obtain ⟨-, hr⟩ := hlast
              subst hr
              simp only [List.length_singleton, Nat.cast_one, one_mul]
              exact hstep
          | cons p2 rest2 =>
              have hlast2 : (p2 :: rest2).getLast? = some (sN, rN) := by
                rwa [List.getLast?_cons_cons] at hlast
              have hrec := ih r sN rN hrest hlast2
              have hlen : ((p2 :: rest2).length : ℚ) + 1 = (((s, r) :: p2 :: rest2).length : ℚ) := by
                push_cast [List.length_cons]
                ring
              have hgoal : last + (((p2 :: rest2).length : ℚ) + 1) * minI ≤ rN := by
                have hexpand : (((p2 :: rest2).length : ℚ) + 1) * minI =
                    ((p2 :: rest2).length : ℚ) * minI + minI := by ring
                rw [hexpand]
                linarith [hrec, hstep]
              rw [← hlen]
              exact hgoal

lemma seqCalls_chain (minI : ℚ) :
    ∀ (calls : List (ℚ × ℚ)) (last : ℚ), SeqCalls minI last calls →
      List.Chain' (fun a b : ℚ × ℚ => a.2 + minI ≤ b.2) calls := by
  intro calls
  induction calls with
  | nil => intro last _; exact List.chain'_nil
  | cons p rest ih =>
      intro last hseq
      cases hseq with
      | cons _ s r _ hls hres hrest =>
          cases rest with
          | nil => simp
          | cons p2 rest2 =>
              cases hrest with
              | cons _ s2 r2 _ hls2 hres2 hrest2 =>
                  refine List.chain'_cons.mpr ⟨?_, ih r (SeqCalls.cons r s2 r2 rest2 hls2 hres2 hrest2)⟩
                  exact le_trans (waitForSlot_ge_last minI r s2) hres2

/-- Claim C8: `N` sequential `waitForSlot` calls on one `RateLimiter`
(each starting no earlier than the previous one resolved) take at least
`(N - 1) * minInterval` of wall-clock time, where `minInterval =
max(100ms, 1000/requestsPerSecond ms)` as set by the service constructor;
and each granted slot records its resolution time as the new last-call
time, so each successive resolution is at least `minInterval` after the
previous one (the `Chain'` conjunct). -/
theorem c8_rate_limiter_lower_bound (rps last0 s1 r1 sN rN : ℚ)
    (calls : List (ℚ × ℚ))
    (hseq : SeqCalls (serviceMinIntervalMs rps) last0 calls)
    (hhead : calls.head? = some (s1, r1))
    (hlast : calls.getLast? = some (sN, rN)) :
    ((calls.length : ℚ) - 1) * serviceMinIntervalMs rps ≤ rN - s1 ∧
    List.Chain' (fun a b : ℚ × ℚ => a.2 + serviceMinIntervalMs rps ≤ b.2) calls := by
  refine ⟨?_, seqCalls_chain _ calls last0 hseq⟩
  cases hseq with
  | nil => simp at hhead
  | cons _ s r rest hls hres hrest =>
      simp only [List.head?_cons, Option.some.injEq, Prod.mk.injEq] at hhead
      obtain ⟨hs, hr⟩ := hhead
      subst hs hr
      have hsr : s ≤ r := le_trans (waitForSlot_ge_start _ last0 s) hres
      cases rest with
      | nil =>
          simp only [List.getLast?_singleton, Option.some.injEq, Prod.mk.injEq] at hlast
          obtain ⟨-, hrN⟩ := hlast
          subst hrN
          simp only [List.length_singleton, Nat.cast_one]
          have hz : ((1 : ℚ) - 1) * serviceMinIntervalMs rps = 0 := by ring
          rw [hz]
          linarith [hsr]
      | cons p2 rest2 =>
          have hlast2 : (p2 :: rest2).getLast? = some (sN, rN) := by
            rwa [List.getLast?_cons_cons] at hlast
          have hrec := seqCalls_getLast_ge (serviceMinIntervalMs rps) (p2 :: rest2) r sN rN
            hrest hlast2
          have hlen : (((s, r) :: p2 :: rest2).length : ℚ) - 1 = ((p2 :: rest2).length : ℚ) := by
            push_cast [List.length_cons]
            ring
          rw [hlen]
          linarith [hrec, hsr]

/-- Claim C8 witness: two calls at `requestsPerSecond = 10`
(minInterval 100 ms): starts at 0 and 100, resolutions at 100 and 200. -/
theorem c8_witness :
    ((([((0 : ℚ), (100 : ℚ)), ((100 : ℚ), (200 : ℚ))] : List (ℚ × ℚ)).length : ℚ) - 1) *
        serviceMinIntervalMs 10 ≤ 200 - 0 ∧
    List.Chain' (fun a b : ℚ × ℚ => a.2 + serviceMinIntervalMs 10 ≤ b.2)
      [((0 : ℚ), (100 : ℚ)), ((100 : ℚ), (200 : ℚ))] := by
  have hmin : serviceMinIntervalMs 10 = 100 := by
    unfold serviceMinIntervalMs
    norm_num
  refine c8_rate_limiter_lower_bound 10 0 0 100 100 200 _ ?_ rfl rfl
  refine SeqCalls.cons 0 0 100 _ le_rfl ?_
    (SeqCalls.cons 100 100 200 _ le_rfl ?_ (SeqCalls.nil 200))
  · unfold waitForSlotResolveTime
    rw [hmin]
    norm_num
  · unfold waitForSlotResolveTime
    rw [hmin]
    norm_num
